import Mathlib

/-!
# beanstalk-deploy: the deployment supervision loop and the Dockerrun placeholder pass

A shallow embedding of `src/beanstalk-deploy.js`:

* `waitForDeployment` (lines 274-391): the closure variables become the fields of
  `State`, the two promise callbacks become `onEvents` and `onEnvironment`, the
  timer callback becomes `update`, and a run is a fold of `step` over the
  messages (timer firings and answered requests) in the order the event loop
  delivers them.
* `introduceEnvironmentVariablesIntoJSONFile` (lines 68-70): four chained
  `String.prototype.replace` calls with anchored regular expressions.

Times are JavaScript epoch milliseconds (`Int`); `EventDate` is in whole seconds.
-/

namespace BeanstalkDeploy

/-! ## Data model -/

/-- One element of `DescribeEventsResult.Events`; `EventDate` is in seconds. -/
structure EventRecord where
  EventDate : Int
  Severity : String
  Message : String
deriving DecidableEq, Repr

/-- One element of `DescribeEnvironmentsResult.Environments`. -/
structure EnvironmentDescription where
  VersionLabel : String
  Status : String
  Health : String
  HealthStatus : String
deriving DecidableEq, Repr

/-- The object `result.data.Error` of an error response. -/
structure ApiError where
  Code : String
  Message : String
deriving DecidableEq, Repr

/-- What `awsApiRequest` resolves with, as far as the handlers look at it:
`statusCode`, whether `headers['content-type']` is `application/json`,
`data.Error` when present, and the success document (`none` when the path
`data.<Op>Response.<Op>Result.<field>` is missing). -/
structure Result (α : Type) where
  statusCode : Nat
  contentTypeJson : Bool
  error : Option ApiError
  body : Option α
deriving DecidableEq, Repr

/-- The values the promise can be rejected with. -/
inductive Failure where
  /-- Thrown by `expect` (lines 104 and 106). -/
  | unexpectedStatus (statusCode : Nat) (detail : Option ApiError)
  /-- A `TypeError` from reading a property of `undefined`. -/
  | typeError
  /-- Line 337. -/
  | throttled (inARow : Nat)
  /-- Line 377. -/
  | deploymentFailed (version health healthStatus : String)
  /-- Line 368. -/
  | healthTimeout (health : String) (waitForRecoverySeconds : Int)
deriving DecidableEq, Repr

/-- The settled state of the promise returned by `waitForDeployment`. -/
inductive Outcome where
  | resolved (env : EnvironmentDescription)
  | rejected (err : Failure)
deriving DecidableEq, Repr

/-- The lines written with `console.log` / `console.warn`, one constructor per
template string, carrying the interpolated values. -/
inductive LogLine where
  | eventsThrottled (inARow : Nat)
  | environmentThrottled (inARow : Nat)
  | failedCall (operation : String) (eventCalls environmentCalls : Nat) (minutes seconds : Int)
  | event (date : Int) (severity message : String)
  | finished (version : String)
  | status (statusText health healthStatus : String)
  | giving (health healthStatus : String) (waitForRecoverySeconds : Int)
  | recovered (health healthStatus : String)
  | stillDegraded (health healthStatus : String) (left : Int)
  | deploymentFailed (now : Int) (version health healthStatus : String)
  | stillUpdating (now : Int) (statusText health healthStatus : String)
deriving DecidableEq, Repr

/-- The arguments of `waitForDeployment` that never change during a run, and
`waitStart` (line 284). -/
structure Config where
  versionLabel : String
  waitForRecoverySeconds : Int
  waitStart : Int
deriving DecidableEq, Repr

/-- The mutable variables of the closure of `waitForDeployment` (lines 274-288),
the timer armed by `setTimeout(update, waitPeriod)`, the promise and the log. -/
structure State where
  start : Int
  counter : Nat
  degraded : Bool
  healThreshold : Option Int
  deploymentFailed : Bool
  waitPeriod : Int
  eventCalls : Nat
  environmentCalls : Nat
  consecutiveThrottleErrors : Nat
  timer : Option Int
  settled : Option Outcome
  log : List LogLine
deriving DecidableEq, Repr

/-- The constant of line 280, in milliseconds. -/
def SECOND : Int := 1000

/-- The constant of line 281, in milliseconds. -/
def MINUTE : Int := 60 * SECOND

/-- The state at line 289, before the first `update()`; `start` is the
`deployStart` passed in by `deployNewVersion`. -/
def initial (start : Int) : State :=
  { start := start
    counter := 0
    degraded := false
    healThreshold := none
    deploymentFailed := false
    waitPeriod := 10 * SECOND
    eventCalls := 0
    environmentCalls := 0
    consecutiveThrottleErrors := 0
    timer := none
    settled := none
    log := [] }

/-! ## Helpers -/

/-- The function `formatTimespan` (lines 265-271), as the pair (minutes, seconds). -/
def formatTimespan (now since : Int) : Int × Int :=
  let elapsed := now - since
  let seconds := elapsed / 1000
  let minutes := seconds / 60
  (minutes, seconds - minutes * 60)

/-- The test `result.statusCode === 400 && result.data && result.data.Error &&
result.data.Error.Code == 'Throttling'` (lines 307 and 333). -/
def isThrottling {α : Type} (result : Result α) : Bool :=
  result.statusCode == 400 &&
    (match result.error with
     | some e => e.Code == "Throttling"
     | none => false)

/-- The function `expect` (lines 98-109): `none` when the status is the expected
one, otherwise the error thrown. With a JSON body lacking `Error`, line 106
throws a `TypeError`. The `console.log(extraErrorMessage)` of line 101 is the
`LogLine.failedCall` written by the two callers. -/
def expect {α : Type} (status : Nat) (result : Result α) : Option Failure :=
  if status ≠ result.statusCode then
    if result.contentTypeJson = false then
      some (Failure.unexpectedStatus result.statusCode none)
    else
      match result.error with
      | some e => some (Failure.unexpectedStatus result.statusCode (some e))
      | none => some Failure.typeError
  else none

/-- The call `resolve(env)`: settles the promise unless it is settled already. -/
def resolve (s : State) (env : EnvironmentDescription) : State :=
  match s.settled with
  | none => { s with settled := some (Outcome.resolved env) }
  | some _ => s

/-- The call `reject(err)`, also reached through `.catch(reject)`: settles the
promise unless it is settled already. -/
def reject (s : State) (err : Failure) : State :=
  match s.settled with
  | none => { s with settled := some (Outcome.rejected err) }
  | some _ => s

/-- A call of `console.log` or `console.warn`: one more line in the log. -/
def say (s : State) (line : LogLine) : State :=
  { s with log := s.log ++ [line] }

/-- Whether `pat` occurs in `text`: `text.match(/pat/)` for a pattern made of
literal characters. -/
def occursIn (pat text : String) : Bool :=
  text.data.tails.any (fun t => pat.data.isPrefixOf t)

/-- The line of `console.log` at line 319: the date is `ev.EventDate * 1000`. -/
def eventLine (ev : EventRecord) : LogLine :=
  LogLine.event (ev.EventDate * 1000) ev.Severity ev.Message

/-- The test of line 320, `ev.Message.match(/Failed to deploy application/)`. -/
def signalsFailure (ev : EventRecord) : Bool :=
  occursIn "Failed to deploy application" ev.Message

/-- The body of `for (let ev of events)` (lines 318-322). -/
def consumeEvent (s : State) (ev : EventRecord) : State :=
  let s := say s (eventLine ev)
  if signalsFailure ev then { s with deploymentFailed := true } else s

/-! ## The three callbacks -/

/-- The head of `update` (lines 293-300): adjusts `waitPeriod`; the pending
timer has fired. The two requests it issues are answered later, by `onEvents`
and `onEnvironment`. -/
def update (cfg : Config) (s : State) (now : Int) : State :=
  let elapsed := now - cfg.waitStart
  let s := { s with timer := none }
  if elapsed > 10 * MINUTE then { s with waitPeriod := 30 * SECOND }
  else if elapsed > 5 * MINUTE then { s with waitPeriod := 20 * SECOND }
  else s

/-- The callback of `describeEvents(...).then(...)` with its `.catch(reject)`
(lines 302-327); `received` is `Events` in the order of the response. -/
def onEvents (cfg : Config) (s : State) (result : Result (List EventRecord)) (now : Int) :
    State :=
  let s := { s with eventCalls := s.eventCalls + 1 }
  if isThrottling result then
    let s := { s with consecutiveThrottleErrors := s.consecutiveThrottleErrors + 1 }
    say s (LogLine.eventsThrottled s.consecutiveThrottleErrors)
  else
    let s := { s with consecutiveThrottleErrors := 0 }
    match expect 200 result with
    | some err =>
      let t := formatTimespan now cfg.waitStart
      reject (say s (LogLine.failedCall "describeEvents" s.eventCalls s.environmentCalls t.1 t.2))
        err
    | none =>
      match result.body with
      | none => reject s Failure.typeError
      | some received =>
        let events := received.reverse
        let s := events.foldl consumeEvent s
        if events.length > 0 then
          match events.getLast? with
          | some last => { s with start := last.EventDate * 1000 + 1000 }
          | none => s
        else s

/-- The callback of `describeEnvironments(...).then(...)` with its
`.catch(reject)` (lines 329-386). The several `new Date()` of one invocation
are the one instant `now`. -/
def onEnvironment (cfg : Config) (s : State) (result : Result (List EnvironmentDescription))
    (now : Int) : State :=
  let s := { s with environmentCalls := s.environmentCalls + 1 }
  if isThrottling result then
    let s := { s with consecutiveThrottleErrors := s.consecutiveThrottleErrors + 1 }
    let s := say s (LogLine.environmentThrottled s.consecutiveThrottleErrors)
    if s.consecutiveThrottleErrors ≥ 5 then
      reject s (Failure.throttled s.consecutiveThrottleErrors)
    else
      { s with timer := some s.waitPeriod }
  else
    match expect 200 result with
    | some err =>
      let t := formatTimespan now cfg.waitStart
      reject
        (say s (LogLine.failedCall "describeEnvironments" s.eventCalls s.environmentCalls t.1 t.2))
        err
    | none =>
      let s := { s with consecutiveThrottleErrors := 0, counter := s.counter + 1 }
      match result.body.bind List.head? with
      | none => reject s Failure.typeError
      | some env =>
        if env.VersionLabel = cfg.versionLabel ∧ env.Status = "Ready" then
          if s.degraded = false then
            let s := say s (LogLine.finished env.VersionLabel)
            let s := say s (LogLine.status env.Status env.Health env.HealthStatus)
            if env.Health = "Green" then
              resolve s env
            else
              let s := say s (LogLine.giving env.Health env.HealthStatus cfg.waitForRecoverySeconds)
              { s with
                degraded := true
                healThreshold := some (now + cfg.waitForRecoverySeconds * SECOND)
                timer := some s.waitPeriod }
          else
            if env.Health = "Green" then
              resolve (say s (LogLine.recovered env.Health env.HealthStatus)) env
            else
              match s.healThreshold with
              | none => reject s Failure.typeError
              | some threshold =>
                if now > threshold then
                  reject s (Failure.healthTimeout env.Health cfg.waitForRecoverySeconds)
                else
                  let left := (threshold - now) / 1000
                  let s := say s (LogLine.stillDegraded env.Health env.HealthStatus left)
                  { s with timer := some s.waitPeriod }
        else if s.deploymentFailed then
          let s := say s (LogLine.deploymentFailed now env.VersionLabel env.Health env.HealthStatus)
          reject s (Failure.deploymentFailed env.VersionLabel env.Health env.HealthStatus)
        else
          let s :=
            if s.counter % 6 = 0 ∧ s.deploymentFailed = false then
              say s (LogLine.stillUpdating now env.Status env.Health env.HealthStatus)
            else s
          { s with timer := some s.waitPeriod }

/-! ## Runs -/

/-- What the event loop delivers to the supervision loop. -/
inductive Msg where
  /-- The timer fires (or the first call, line 389): `update()` runs at `now`. -/
  | tick (now : Int)
  /-- A `describeEvents` request is answered at `now`. -/
  | events (result : Result (List EventRecord)) (now : Int)
  /-- A `describeEnvironments` request is answered at `now`. -/
  | environment (result : Result (List EnvironmentDescription)) (now : Int)
deriving DecidableEq, Repr

/-- One delivery. Once the promise is settled the continuation in
`deployNewVersion` (lines 166-177) calls `process.exit`, so nothing more is
handled. -/
def step (cfg : Config) (s : State) (m : Msg) : State :=
  match s.settled with
  | some _ => s
  | none =>
    match m with
    | Msg.tick now => update cfg s now
    | Msg.events result now => onEvents cfg s result now
    | Msg.environment result now => onEnvironment cfg s result now

/-- The state after the deliveries `msgs`, handled in order from `s`. -/
def run (cfg : Config) (s : State) (msgs : List Msg) : State :=
  msgs.foldl (step cfg) s

/-! ## The Dockerrun placeholder pass -/

/-- The class `\s` of ECMAScript: WhiteSpace and LineTerminator code points. -/
def isWhiteSpace (c : Char) : Bool :=
  let n := c.toNat
  n == 0x09 || n == 0x0A || n == 0x0B || n == 0x0C || n == 0x0D || n == 0x20 ||
    n == 0xA0 || n == 0x1680 || (0x2000 ≤ n && n ≤ 0x200A) || n == 0x2028 ||
    n == 0x2029 || n == 0x202F || n == 0x205F || n == 0x3000 || n == 0xFEFF

/-- The pieces the four regular expressions of line 69 are made of: a literal
character, or `\s*`. -/
inductive Atom where
  | chr (c : Char)
  | spaceStar
deriving DecidableEq, Repr

/-- Whether `k` accepts the subject after some run of white space (`\s*`
followed by the rest of the pattern, with backtracking). -/
def matchStar (k : List Char → Bool) : List Char → Bool
  | [] => k []
  | x :: xs => k (x :: xs) || (isWhiteSpace x && matchStar k xs)

/-- Whether `/^ atoms $/` (no `m` flag) matches: the atoms in sequence cover the
whole subject. -/
def matchAtoms : List Atom → List Char → Bool
  | [], xs => xs.isEmpty
  | Atom.chr c :: ps, xs =>
    match xs with
    | x :: rest => x == c && matchAtoms ps rest
    | [] => false
  | Atom.spaceStar :: ps, xs => matchStar (matchAtoms ps) xs

/-- The atoms of a run of literal characters. -/
def literal (text : String) : List Atom :=
  text.data.map Atom.chr

/-- The atoms of `/^\{\{\s*NAME\s*\}\}$/g`. -/
def placeholderPattern (name : String) : List Atom :=
  literal "\x7b\x7b" ++ [Atom.spaceStar] ++ literal name ++ [Atom.spaceStar] ++
    literal "\x7d\x7d"

/-- The replacement text of `String.prototype.replace` (GetSubstitution) for a
pattern without capture groups that matched the whole subject: `$$` is a dollar
sign, `$&` the match, the text before and after the match (dollar sign followed
by a backtick or an apostrophe) is empty, every other dollar sign is literal. -/
def expandReplacement (matched : List Char) : List Char → List Char
  | [] => []
  | [c] => [c]
  | c :: d :: rest =>
    if c = '$' then
      if d = '$' then '$' :: expandReplacement matched rest
      else if d = '&' then matched ++ expandReplacement matched rest
      else if d = Char.ofNat 96 ∨ d = Char.ofNat 39 then expandReplacement matched rest
      else '$' :: expandReplacement matched (d :: rest)
    else c :: expandReplacement matched (d :: rest)

/-- The call `subject.replace(/^ atoms $/g, replacement)` with a string as
replacement: the anchors leave at most one match, the whole subject. -/
def replaceAnchored (atoms : List Atom) (subject replacement : String) : String :=
  if matchAtoms atoms subject.data then
    String.mk (expandReplacement subject.data replacement.data)
  else subject

/-- The function `introduceEnvironmentVariablesIntoJSONFile` (lines 68-70). -/
def introduceEnvironmentVariablesIntoJSONFile
    (file ECR_REGISTRY application environmentName versionLabel : String) : String :=
  replaceAnchored (placeholderPattern "VERSION_LABEL")
    (replaceAnchored (placeholderPattern "ENVIRONMENT_NAME")
      (replaceAnchored (placeholderPattern "APPLICATION_NAME")
        (replaceAnchored (placeholderPattern "ECR_REGISTRY") file ECR_REGISTRY)
        application)
      environmentName)
    versionLabel

/-- The exceptional texts, in the words of the specification: two opening
braces, optional white space, one of the four names, optional white space, two
closing braces, and nothing else. -/
def IsPlaceholder (file : String) : Prop :=
  ∃ name ∈ ["ECR_REGISTRY", "APPLICATION_NAME", "ENVIRONMENT_NAME", "VERSION_LABEL"],
    ∃ ws₁ ws₂ : List Char,
      (∀ c ∈ ws₁, isWhiteSpace c = true) ∧ (∀ c ∈ ws₂, isWhiteSpace c = true) ∧
        file.data = "\x7b\x7b".data ++ ws₁ ++ name.data ++ ws₂ ++ "\x7d\x7d".data

/-! ## Notions used to state the properties of the event cursor -/

/-- The `StartTime` sent by `describeEvents` (line 81) for the cursor `start`:
`toISOString()` without the milliseconds, a whole number of seconds. -/
def startTimeSeconds (start : Int) : Int :=
  start / 1000

/-- Whether an events response holds only records dated at or after the
`StartTime` of the cursor of `s`; other deliveries pass. -/
def answersCursor (s : State) : Msg → Bool
  | Msg.events result _ =>
    match result.body with
    | some received => received.all (fun ev => decide (startTimeSeconds s.start ≤ ev.EventDate))
    | none => true
  | _ => true

/-- Whether `answersCursor` holds at every delivery of a run from `s`, each at
the state in which it is handled. -/
def answersCursorAll (cfg : Config) : State → List Msg → Bool
  | _, [] => true
  | s, m :: rest => answersCursor s m && answersCursorAll cfg (step cfg s m) rest

/-- The cursors `start` the `DescribeEvents` queries of a run are made with, in
order: one query per `update()` (line 302). -/
def queryCursors (cfg : Config) : State → List Msg → List Int
  | _, [] => []
  | s, m :: rest =>
    match m, s.settled with
    | Msg.tick _, none => s.start :: queryCursors cfg (step cfg s m) rest
    | _, _ => queryCursors cfg (step cfg s m) rest

/-! ## Notions used to state the cadence -/

/-- The function `delayFor` of the specification (Cadence Controller): 10
seconds, 20 seconds once more than 5 minutes have elapsed, 30 seconds once more
than 10 minutes have elapsed. -/
def delayFor (elapsed : Int) : Int :=
  if elapsed > 10 * MINUTE then 30 * SECOND
  else if elapsed > 5 * MINUTE then 20 * SECOND
  else 10 * SECOND

/-- The elapsed time `new Date().getTime() - waitStart` (line 293) of each
`update()` of a run, in order. -/
def tickElapsed (cfg : Config) (msgs : List Msg) : List Int :=
  msgs.filterMap fun m =>
    match m with
    | Msg.tick now => some (now - cfg.waitStart)
    | _ => none

/-- Whether a delivery is a firing of the timer. -/
def isTick : Msg → Bool
  | Msg.tick _ => true
  | _ => false

/-! ## Notions used to state the degraded timeout -/

/-- Whether an environment response is a status-200 answer whose snapshot shows
the target version, Status `Ready` and a Health other than `Green`. -/
def showsDegraded (cfg : Config) (result : Result (List EnvironmentDescription)) : Bool :=
  result.statusCode == 200 &&
    match result.body.bind List.head? with
    | some env =>
      env.VersionLabel == cfg.versionLabel && env.Status == "Ready" && env.Health != "Green"
    | none => false

/-- Whether an events response is one the callback does not fail on: throttled,
or status 200 with the list of events present. -/
def eventsAnswered (result : Result (List EventRecord)) : Bool :=
  isThrottling result || (result.statusCode == 200 && result.body.isSome)

/-- The deliveries of a stretch of a run in which every environment response
shows the degraded snapshot and the events stream does not fail. -/
def degradedDelivery (cfg : Config) : Msg → Bool
  | Msg.tick _ => true
  | Msg.events result _ => eventsAnswered result
  | Msg.environment result _ => showsDegraded cfg result

/-- The times at which the environment responses of a run are handled. -/
def environmentTimes (msgs : List Msg) : List Int :=
  msgs.filterMap fun m =>
    match m with
    | Msg.environment _ now => some now
    | _ => none

/-- The promise is rejected with the health-recovery timeout. -/
def TimedOut (cfg : Config) (s : State) : Prop :=
  ∃ health, s.settled =
    some (Outcome.rejected (Failure.healthTimeout health cfg.waitForRecoverySeconds))

/-! ## Notions used to state the throttle bound -/

/-- The number of throttle responses in a row, of both streams together, that a
run ends with; the deliveries are given newest first, timer firings are not
responses. -/
def throttlesInARow : List Msg → Nat
  | [] => 0
  | Msg.tick _ :: earlier => throttlesInARow earlier
  | Msg.events result _ :: earlier =>
    if isThrottling result then throttlesInARow earlier + 1 else 0
  | Msg.environment result _ :: earlier =>
    if isThrottling result then throttlesInARow earlier + 1 else 0

/-- The number of throttle responses in a row of the environment stream alone
that a run ends with (newest first): responses of the events stream are passed
over, as a counter kept per stream would. -/
def environmentThrottlesInARow : List Msg → Nat
  | [] => 0
  | Msg.tick _ :: earlier => environmentThrottlesInARow earlier
  | Msg.events _ _ :: earlier => environmentThrottlesInARow earlier
  | Msg.environment result _ :: earlier =>
    if isThrottling result then environmentThrottlesInARow earlier + 1 else 0

/-- Whether a delivery is a response of the events stream. -/
def isEventsResponse : Msg → Bool
  | Msg.events _ _ => true
  | _ => false

/-! ## Sample inputs -/

/-- A run deploying version `v1` with the default recovery window of 30 seconds
(line 193), started at time 0. -/
def sampleConfig : Config :=
  { versionLabel := "v1", waitForRecoverySeconds := 30, waitStart := 0 }

/-- An environment snapshot with the given version, status and health. -/
def snapshot (version status health : String) : EnvironmentDescription :=
  { VersionLabel := version, Status := status, Health := health, HealthStatus := "Info" }

/-- A status-200 `DescribeEnvironments` response with one environment. -/
def okEnvironment (env : EnvironmentDescription) : Result (List EnvironmentDescription) :=
  { statusCode := 200, contentTypeJson := true, error := none, body := some [env] }

/-- A status-200 `DescribeEvents` response. -/
def okEvents (received : List EventRecord) : Result (List EventRecord) :=
  { statusCode := 200, contentTypeJson := true, error := none, body := some received }

/-- A status-400 response with `Error.Code` equal to `Throttling`. -/
def throttledResult (α : Type) : Result α :=
  { statusCode := 400
    contentTypeJson := true
    error := some { Code := "Throttling", Message := "Rate exceeded" }
    body := none }

/-- An event record of severity INFO dated `seconds`. -/
def eventAt (seconds : Int) (message : String) : EventRecord :=
  { EventDate := seconds, Severity := "INFO", Message := message }

/-! ## Sample runs -/

/-- Four ticks whose environment request is throttled each time (the events
responses are still outstanding), and the fifth tick. -/
def fourEnvironmentThrottles : List Msg :=
  [Msg.tick 0, Msg.environment (throttledResult _) 100,
    Msg.tick 10100, Msg.environment (throttledResult _) 10200,
    Msg.tick 20200, Msg.environment (throttledResult _) 20300,
    Msg.tick 30300, Msg.environment (throttledResult _) 30400,
    Msg.tick 40400]

/-- Three ticks with both requests throttled each time. -/
def bothStreamsThrottled : List Msg :=
  [Msg.tick 0, Msg.events (throttledResult _) 100, Msg.environment (throttledResult _) 200,
    Msg.tick 10200, Msg.events (throttledResult _) 10300,
    Msg.environment (throttledResult _) 10400,
    Msg.tick 20400, Msg.events (throttledResult _) 20500,
    Msg.environment (throttledResult _) 20600]

/-- Two ticks while the environment is still updating; the second environment
response takes six minutes to arrive. -/
def slowSecondTick : List Msg :=
  [Msg.tick 0, Msg.environment (okEnvironment (snapshot "v0" "Updating" "Grey")) 100,
    Msg.tick 10100, Msg.environment (okEnvironment (snapshot "v0" "Updating" "Grey")) 370000]

/-- Ticks every 10 seconds, each answered at once by an empty batch of events
and a snapshot at the target version, `Ready` and `Yellow`: the first four. -/
def fourYellowTicks : List Msg :=
  [Msg.tick 0, Msg.events (okEvents []) 0,
    Msg.environment (okEnvironment (snapshot "v1" "Ready" "Yellow")) 0,
    Msg.tick 10000, Msg.events (okEvents []) 10000,
    Msg.environment (okEnvironment (snapshot "v1" "Ready" "Yellow")) 10000,
    Msg.tick 20000, Msg.events (okEvents []) 20000,
    Msg.environment (okEnvironment (snapshot "v1" "Ready" "Yellow")) 20000,
    Msg.tick 30000, Msg.events (okEvents []) 30000,
    Msg.environment (okEnvironment (snapshot "v1" "Ready" "Yellow")) 30000]

/-- The same run with its fifth tick. -/
def fiveYellowTicks : List Msg :=
  fourYellowTicks ++
    [Msg.tick 40000, Msg.events (okEvents []) 40000,
      Msg.environment (okEnvironment (snapshot "v1" "Ready" "Yellow")) 40000]

/-- A Dockerrun document with the version placeholder inside it:
`{"Name": "app:{{VERSION_LABEL}}"}`. -/
def sampleDockerrun : String :=
  "\x7b\"Name\": \"app:" ++ "\x7b\x7bVERSION_LABEL\x7d\x7d" ++ "\"\x7d"

/-- A first tick while the environment is updating, then a second tick whose
events response holds a record with the failure text. -/
def failureSignalled : List Msg :=
  [Msg.tick 0, Msg.events (okEvents []) 100,
    Msg.environment (okEnvironment (snapshot "v0" "Updating" "Grey")) 200,
    Msg.tick 10200,
    Msg.events (okEvents [eventAt 7 "Failed to deploy application."]) 10250]

/-! ## Basic facts about the callbacks -/

section Basics

variable (cfg : Config)

theorem foldl_consumeEvent (events : List EventRecord) (s : State) :
    events.foldl consumeEvent s =
      { s with
        log := s.log ++ events.map eventLine
        deploymentFailed := s.deploymentFailed || events.any signalsFailure } := by
  induction events generalizing s with
  | nil => simp
  | cons ev rest ih =>
    rw [List.foldl_cons, ih]
    by_cases h : signalsFailure ev = true <;> simp [consumeEvent, say, h]

theorem step_of_settled (s : State) (m : Msg) (o : Outcome) (h : s.settled = some o) :
    step cfg s m = s := by
  simp [step, h]

theorem run_of_settled (s : State) (msgs : List Msg) (o : Outcome) (h : s.settled = some o) :
    run cfg s msgs = s := by
  induction msgs with
  | nil => rfl
  | cons m rest ih =>
    show run cfg (step cfg s m) rest = s
    rw [step_of_settled cfg s m o h]
    exact ih

theorem run_nil (s : State) : run cfg s [] = s := rfl

theorem run_cons (s : State) (m : Msg) (msgs : List Msg) :
    run cfg s (m :: msgs) = run cfg (step cfg s m) msgs := rfl

theorem run_append (s : State) (pre post : List Msg) :
    run cfg s (pre ++ post) = run cfg (run cfg s pre) post := by
  simp [run, List.foldl_append]

theorem step_unsettled (s : State) (m : Msg) (h : (step cfg s m).settled = none) :
    s.settled = none := by
  cases hs : s.settled with
  | none => rfl
  | some o => rw [step_of_settled cfg s m o hs, hs] at h; exact h

theorem run_unsettled (s : State) (msgs : List Msg) (h : (run cfg s msgs).settled = none) :
    s.settled = none := by
  cases hs : s.settled with
  | none => rfl
  | some o => rw [run_of_settled cfg s msgs o hs, hs] at h; exact h

end Basics

section Handlers

variable (cfg : Config)

theorem isThrottling_of_ok {α : Type} (result : Result α) (h : result.statusCode = 200) :
    isThrottling result = false := by
  simp [isThrottling, h]

theorem expect_of_ok {α : Type} (result : Result α) (h : result.statusCode = 200) :
    expect 200 result = none := by
  simp [expect, h]

theorem onEvents_fields (s : State) (result : Result (List EventRecord)) (now : Int) :
    (onEvents cfg s result now).degraded = s.degraded ∧
      (onEvents cfg s result now).healThreshold = s.healThreshold ∧
      (onEvents cfg s result now).waitPeriod = s.waitPeriod ∧
      (onEvents cfg s result now).timer = s.timer ∧
      (s.deploymentFailed = true → (onEvents cfg s result now).deploymentFailed = true) := by
  unfold onEvents
  simp only []
  split
  · simp [say]
  · split
    · simp [reject, say]; split <;> simp
    · split
      · simp [reject]; split <;> simp
      · simp only [foldl_consumeEvent]
        split
        · split <;> simp_all
        · simp_all

theorem onEnvironment_fields (s : State) (result : Result (List EnvironmentDescription))
    (now : Int) :
    (s.degraded = true →
        (onEnvironment cfg s result now).degraded = true ∧
          (onEnvironment cfg s result now).healThreshold = s.healThreshold) ∧
      (onEnvironment cfg s result now).waitPeriod = s.waitPeriod ∧
      (onEnvironment cfg s result now).deploymentFailed = s.deploymentFailed ∧
      (onEnvironment cfg s result now).start = s.start ∧
      ((onEnvironment cfg s result now).timer = s.timer ∨
        (onEnvironment cfg s result now).timer = some s.waitPeriod) := by
  unfold onEnvironment
  simp only [reject, resolve, say]
  repeat' split
  all_goals simp_all

theorem update_fields (s : State) (now : Int) :
    (update cfg s now).degraded = s.degraded ∧
      (update cfg s now).healThreshold = s.healThreshold ∧
      (update cfg s now).deploymentFailed = s.deploymentFailed ∧
      (update cfg s now).start = s.start ∧
      (update cfg s now).settled = s.settled ∧
      (update cfg s now).consecutiveThrottleErrors = s.consecutiveThrottleErrors ∧
      (update cfg s now).timer = none := by
  unfold update
  simp only []
  repeat' split
  all_goals simp

end Handlers

/-! ## The grace window -/

section Grace

variable (cfg : Config)

theorem step_keeps_grace (s : State) (m : Msg) (h : s.degraded = true) :
    (step cfg s m).degraded = true ∧ (step cfg s m).healThreshold = s.healThreshold := by
  unfold step
  split
  · exact ⟨h, rfl⟩
  · cases m with
    | tick now =>
      have hu := update_fields cfg s now
      exact ⟨hu.1.trans h, hu.2.1⟩
    | events result now =>
      have he := onEvents_fields cfg s result now
      exact ⟨he.1.trans h, he.2.1⟩
    | environment result now =>
      exact (onEnvironment_fields cfg s result now).1 h

theorem run_keeps_grace (msgs : List Msg) (s : State) (h : s.degraded = true) :
    (run cfg s msgs).degraded = true ∧ (run cfg s msgs).healThreshold = s.healThreshold := by
  induction msgs generalizing s with
  | nil => exact ⟨h, rfl⟩
  | cons m rest ih =>
    have hs := step_keeps_grace cfg s m h
    have hr := ih (step cfg s m) hs.1
    exact ⟨hr.1, hr.2.trans hs.2⟩

theorem opening_sets_deadline (s : State) (result : Result (List EnvironmentDescription))
    (now : Int) (hclosed : s.degraded = false)
    (hopen : (step cfg s (Msg.environment result now)).degraded = true) :
    (step cfg s (Msg.environment result now)).healThreshold =
      some (now + cfg.waitForRecoverySeconds * SECOND) := by
  revert hopen
  unfold step onEnvironment
  simp only [reject, resolve, say]
  repeat' split
  all_goals simp_all

/-- C9: once an environment response has opened the grace window (`degraded`
goes from false to true), the deadline `healThreshold` is the time of that
response plus `waitForRecoverySeconds`, and after any further deliveries of
either stream and of the timer `degraded` is still true and `healThreshold` is
still that first deadline. -/
theorem grace_window_opened_once (cfg : Config) (s : State)
    (result : Result (List EnvironmentDescription)) (now : Int) (later : List Msg)
    (hclosed : s.degraded = false)
    (hopen : (step cfg s (Msg.environment result now)).degraded = true) :
    (step cfg s (Msg.environment result now)).healThreshold =
        some (now + cfg.waitForRecoverySeconds * SECOND) ∧
      (run cfg (step cfg s (Msg.environment result now)) later).degraded = true ∧
      (run cfg (step cfg s (Msg.environment result now)) later).healThreshold =
        some (now + cfg.waitForRecoverySeconds * SECOND) := by
  have hd := opening_sets_deadline cfg s result now hclosed hopen
  have hr := run_keeps_grace cfg later _ hopen
  exact ⟨hd, hr.1, hr.2.trans hd⟩

theorem grace_window_opened_once_witness :
    (initial 0).degraded = false ∧
      (step sampleConfig (initial 0)
          (Msg.environment (okEnvironment (snapshot "v1" "Ready" "Yellow")) 5000)).degraded = true ∧
      ((step sampleConfig (initial 0)
            (Msg.environment (okEnvironment (snapshot "v1" "Ready" "Yellow")) 5000)).healThreshold =
          some (5000 + sampleConfig.waitForRecoverySeconds * SECOND) ∧
        (run sampleConfig
            (step sampleConfig (initial 0)
              (Msg.environment (okEnvironment (snapshot "v1" "Ready" "Yellow")) 5000))
            [Msg.tick 15000,
              Msg.environment (okEnvironment (snapshot "v0" "Updating" "Grey")) 15000,
              Msg.tick 25000,
              Msg.environment (okEnvironment (snapshot "v1" "Ready" "Red")) 25000]).degraded = true ∧
        (run sampleConfig
            (step sampleConfig (initial 0)
              (Msg.environment (okEnvironment (snapshot "v1" "Ready" "Yellow")) 5000))
            [Msg.tick 15000,
              Msg.environment (okEnvironment (snapshot "v0" "Updating" "Grey")) 15000,
              Msg.tick 25000,
              Msg.environment (okEnvironment (snapshot "v1" "Ready" "Red")) 25000]).healThreshold =
          some (5000 + sampleConfig.waitForRecoverySeconds * SECOND)) :=
  ⟨by decide, by decide,
    grace_window_opened_once sampleConfig (initial 0)
      (okEnvironment (snapshot "v1" "Ready" "Yellow")) 5000 _ (by decide) (by decide)⟩

end Grace

/-! ## The event cursor -/

section Cursor

variable (cfg : Config)

theorem onEvents_start (s : State) (result : Result (List EventRecord)) (now : Int) :
    (onEvents cfg s result now).start = s.start ∨
      ∃ received newest, result.body = some received ∧ newest ∈ received ∧
        (onEvents cfg s result now).start = newest.EventDate * 1000 + 1000 := by
  unfold onEvents
  simp only []
  split
  · simp [say]
  · split
    · left; simp only [reject, say]; split <;> rfl
    · split
      · left; simp only [reject]; split <;> rfl
      · rename_i received hbody
        simp only [foldl_consumeEvent]
        split
        · split
          · rename_i last hlast
            right
            exact ⟨received, last, hbody,
              List.mem_reverse.mp (List.mem_of_getLast?_eq_some hlast), rfl⟩
          · left; rfl
        · left; rfl

theorem step_cursor_le (s : State) (m : Msg) (h : answersCursor s m = true) :
    s.start ≤ (step cfg s m).start := by
  unfold step
  split
  · exact le_refl _
  · cases m with
    | tick now => exact le_of_eq (update_fields cfg s now).2.2.2.1.symm
    | environment result now => exact le_of_eq (onEnvironment_fields cfg s result now).2.2.2.1.symm
    | events result now =>
      rcases onEvents_start cfg s result now with heq | ⟨received, newest, hbody, hmem, heq⟩
      · exact le_of_eq heq.symm
      · simp only [answersCursor, hbody, List.all_eq_true, decide_eq_true_eq] at h
        have hn := h newest hmem
        show s.start ≤ (onEvents cfg s result now).start
        rw [heq]
        unfold startTimeSeconds at hn
        omega

theorem queryCursors_ge (msgs : List Msg) (s : State)
    (h : answersCursorAll cfg s msgs = true) : ∀ c ∈ queryCursors cfg s msgs, s.start ≤ c := by
  induction msgs generalizing s with
  | nil => intro c hc; simp [queryCursors] at hc
  | cons m rest ih =>
    simp only [answersCursorAll, Bool.and_eq_true] at h
    have hstep := step_cursor_le cfg s m h.1
    have hrest := ih (step cfg s m) h.2
    intro c hc
    unfold queryCursors at hc
    split at hc
    · rcases List.mem_cons.mp hc with rfl | hmem
      · exact le_refl _
      · exact le_trans hstep (hrest c hmem)
    · exact le_trans hstep (hrest c hc)

/-- C6, as the code has it: when every events response handled holds only
records dated at or after the `StartTime` of the cursor current at that moment
(what the service returns for a query made with that cursor), the cursors of
the successive `DescribeEvents` queries of a run never decrease. -/
theorem query_cursor_monotone (cfg : Config) (s : State) (msgs : List Msg)
    (h : answersCursorAll cfg s msgs = true) :
    (queryCursors cfg s msgs).Pairwise (fun earlier later => earlier ≤ later) := by
  induction msgs generalizing s with
  | nil => simp [queryCursors]
  | cons m rest ih =>
    have h' := h
    simp only [answersCursorAll, Bool.and_eq_true] at h'
    have hstep := step_cursor_le cfg s m h'.1
    have hrest := ih (step cfg s m) h'.2
    unfold queryCursors
    split
    · refine List.pairwise_cons.mpr ⟨fun c hc => ?_, hrest⟩
      exact le_trans hstep (queryCursors_ge cfg rest _ h'.2 c hc)
    · exact hrest

theorem query_cursor_monotone_witness :
    answersCursorAll sampleConfig (initial 0)
        [Msg.tick 0, Msg.events (okEvents []) 100,
          Msg.environment (okEnvironment (snapshot "v0" "Updating" "Grey")) 200,
          Msg.tick 10200, Msg.events (okEvents [eventAt 9 "b", eventAt 5 "a"]) 10300,
          Msg.environment (okEnvironment (snapshot "v0" "Updating" "Grey")) 10400,
          Msg.tick 20400, Msg.events (okEvents [eventAt 15 "c"]) 20500,
          Msg.tick 30500] = true ∧
      (queryCursors sampleConfig (initial 0)
        [Msg.tick 0, Msg.events (okEvents []) 100,
          Msg.environment (okEnvironment (snapshot "v0" "Updating" "Grey")) 200,
          Msg.tick 10200, Msg.events (okEvents [eventAt 9 "b", eventAt 5 "a"]) 10300,
          Msg.environment (okEnvironment (snapshot "v0" "Updating" "Grey")) 10400,
          Msg.tick 20400, Msg.events (okEvents [eventAt 15 "c"]) 20500,
          Msg.tick 30500]).Pairwise (fun earlier later => earlier ≤ later) :=
  ⟨by decide, query_cursor_monotone sampleConfig (initial 0) _ (by decide)⟩

/-- C6 fails as stated: the answer to the second query (one record, dated 5)
is delivered after the answer to the third (records dated 15 and 5) and after
the fourth query has been sent; the five queries are made with the cursors
0, 0, 0, 16000, 6000. -/
theorem query_cursor_can_decrease :
    queryCursors sampleConfig (initial 0)
        [Msg.tick 0, Msg.events (okEvents []) 100,
          Msg.environment (okEnvironment (snapshot "v0" "Updating" "Grey")) 200,
          Msg.tick 10200,
          Msg.environment (okEnvironment (snapshot "v0" "Updating" "Grey")) 10400,
          Msg.tick 20400, Msg.events (okEvents [eventAt 15 "b", eventAt 5 "a"]) 20500,
          Msg.environment (okEnvironment (snapshot "v0" "Updating" "Grey")) 20600,
          Msg.tick 30600, Msg.events (okEvents [eventAt 5 "a"]) 30700,
          Msg.environment (okEnvironment (snapshot "v0" "Updating" "Grey")) 30800,
          Msg.tick 40800] =
      [0, 0, 0, 16000, 6000] := by
  decide

end Cursor

/-! ## The verdict on an environment snapshot -/

section Verdict

variable (cfg : Config)

theorem step_environment_unsettled (s : State) (result : Result (List EnvironmentDescription))
    (now : Int) (hs : s.settled = none) :
    step cfg s (Msg.environment result now) = onEnvironment cfg s result now := by
  simp only [step, hs]

theorem step_keeps_flag (s : State) (m : Msg) (h : s.deploymentFailed = true) :
    (step cfg s m).deploymentFailed = true := by
  unfold step
  split
  · exact h
  · cases m with
    | tick now => exact (update_fields cfg s now).2.2.1.trans h
    | events result now => exact (onEvents_fields cfg s result now).2.2.2.2 h
    | environment result now => exact (onEnvironment_fields cfg s result now).2.2.1.trans h

theorem run_keeps_flag (msgs : List Msg) (s : State) (h : s.deploymentFailed = true) :
    (run cfg s msgs).deploymentFailed = true := by
  induction msgs generalizing s with
  | nil => exact h
  | cons m rest ih => exact ih (step cfg s m) (step_keeps_flag cfg s m h)

/-- C3: a status-200 environment response handled before the promise is settled
resolves it if and only if the snapshot has the target version, Status `Ready`
and Health `Green`, whether or not a grace window is open (and whatever the
deployment-failed flag); the value resolved with is that snapshot; on a run
without a grace window (`degraded` false) resolving leaves `degraded` false and
`healThreshold` untouched. -/
theorem success_verdict (cfg : Config) (s : State)
    (result : Result (List EnvironmentDescription)) (now : Int)
    (env : EnvironmentDescription) (others : List EnvironmentDescription)
    (hs : s.settled = none) (h200 : result.statusCode = 200)
    (hbody : result.body = some (env :: others)) :
    ((∃ e, (step cfg s (Msg.environment result now)).settled = some (Outcome.resolved e)) ↔
        env.VersionLabel = cfg.versionLabel ∧ env.Status = "Ready" ∧ env.Health = "Green") ∧
      (∀ e, (step cfg s (Msg.environment result now)).settled = some (Outcome.resolved e) →
        e = env) ∧
      (s.degraded = false →
        (∃ e, (step cfg s (Msg.environment result now)).settled = some (Outcome.resolved e)) →
        (step cfg s (Msg.environment result now)).degraded = false ∧
          (step cfg s (Msg.environment result now)).healThreshold = s.healThreshold) := by
  rw [step_environment_unsettled cfg s result now hs]
  unfold onEnvironment
  simp only [isThrottling_of_ok result h200, expect_of_ok result h200, hbody, reject, resolve,
    say, Option.bind, List.head?]
  repeat' split
  all_goals simp_all

theorem success_verdict_witness :
    ((∃ e, (step sampleConfig (initial 0)
            (Msg.environment (okEnvironment (snapshot "v1" "Ready" "Green")) 100)).settled =
          some (Outcome.resolved e)) ↔
        (snapshot "v1" "Ready" "Green").VersionLabel = sampleConfig.versionLabel ∧
          (snapshot "v1" "Ready" "Green").Status = "Ready" ∧
          (snapshot "v1" "Ready" "Green").Health = "Green") ∧
      (∀ e, (step sampleConfig (initial 0)
            (Msg.environment (okEnvironment (snapshot "v1" "Ready" "Green")) 100)).settled =
          some (Outcome.resolved e) → e = snapshot "v1" "Ready" "Green") ∧
      ((initial 0).degraded = false →
        (∃ e, (step sampleConfig (initial 0)
            (Msg.environment (okEnvironment (snapshot "v1" "Ready" "Green")) 100)).settled =
          some (Outcome.resolved e)) →
        (step sampleConfig (initial 0)
            (Msg.environment (okEnvironment (snapshot "v1" "Ready" "Green")) 100)).degraded = false ∧
          (step sampleConfig (initial 0)
            (Msg.environment (okEnvironment (snapshot "v1" "Ready" "Green")) 100)).healThreshold =
            (initial 0).healThreshold) :=
  success_verdict sampleConfig (initial 0) (okEnvironment (snapshot "v1" "Ready" "Green")) 100
    (snapshot "v1" "Ready" "Green") [] rfl rfl rfl

/-- C1, as the code has it: once the deployment-failed flag is set, a later
status-200 environment response handled before the promise is settled rejects
with the deployment-failed error if and only if the snapshot is not both at the
target version and `Ready`; the version/Ready test comes first, and a snapshot
at the target version, `Ready` and `Green` resolves the promise with it. -/
theorem failure_after_signal (cfg : Config) (s : State) (between : List Msg)
    (result : Result (List EnvironmentDescription)) (now : Int)
    (env : EnvironmentDescription) (others : List EnvironmentDescription)
    (hflag : s.deploymentFailed = true) (hs : (run cfg s between).settled = none)
    (h200 : result.statusCode = 200) (hbody : result.body = some (env :: others)) :
    ((step cfg (run cfg s between) (Msg.environment result now)).settled =
          some (Outcome.rejected
            (Failure.deploymentFailed env.VersionLabel env.Health env.HealthStatus)) ↔
        ¬(env.VersionLabel = cfg.versionLabel ∧ env.Status = "Ready")) ∧
      (env.VersionLabel = cfg.versionLabel ∧ env.Status = "Ready" ∧ env.Health = "Green" →
        (step cfg (run cfg s between) (Msg.environment result now)).settled =
          some (Outcome.resolved env)) := by
  have hf := run_keeps_flag cfg between s hflag
  rw [step_environment_unsettled cfg _ result now hs]
  unfold onEnvironment
  simp only [isThrottling_of_ok result h200, expect_of_ok result h200, hbody, reject, resolve,
    say, Option.bind, List.head?]
  repeat' split
  all_goals simp_all

theorem failure_after_signal_witness :
    ((step sampleConfig
            (run sampleConfig
              (step sampleConfig (initial 0)
                (Msg.events (okEvents [eventAt 7 "Failed to deploy application."]) 8000))
              [Msg.tick 10000])
            (Msg.environment (okEnvironment (snapshot "v0" "Ready" "Green")) 10100)).settled =
          some (Outcome.rejected (Failure.deploymentFailed
            (snapshot "v0" "Ready" "Green").VersionLabel (snapshot "v0" "Ready" "Green").Health
            (snapshot "v0" "Ready" "Green").HealthStatus)) ↔
        ¬((snapshot "v0" "Ready" "Green").VersionLabel = sampleConfig.versionLabel ∧
          (snapshot "v0" "Ready" "Green").Status = "Ready")) ∧
      ((snapshot "v0" "Ready" "Green").VersionLabel = sampleConfig.versionLabel ∧
          (snapshot "v0" "Ready" "Green").Status = "Ready" ∧
          (snapshot "v0" "Ready" "Green").Health = "Green" →
        (step sampleConfig
            (run sampleConfig
              (step sampleConfig (initial 0)
                (Msg.events (okEvents [eventAt 7 "Failed to deploy application."]) 8000))
              [Msg.tick 10000])
            (Msg.environment (okEnvironment (snapshot "v0" "Ready" "Green")) 10100)).settled =
          some (Outcome.resolved (snapshot "v0" "Ready" "Green"))) :=
  failure_after_signal sampleConfig
    (step sampleConfig (initial 0)
      (Msg.events (okEvents [eventAt 7 "Failed to deploy application."]) 8000))
    [Msg.tick 10000] (okEnvironment (snapshot "v0" "Ready" "Green")) 10100
    (snapshot "v0" "Ready" "Green") [] (by decide) (by decide) rfl rfl

/-- C1 fails as stated: after an event with the failure text has been consumed
(flag set), a status-200 snapshot at the target version, `Ready` and `Green`
resolves the promise. -/
theorem stale_success_after_failure_signal :
    (run sampleConfig (initial 0) failureSignalled).settled = none ∧
      (run sampleConfig (initial 0) failureSignalled).deploymentFailed = true ∧
      (run sampleConfig (initial 0)
          (failureSignalled ++
            [Msg.environment (okEnvironment (snapshot "v1" "Ready" "Green")) 10300])).settled =
        some (Outcome.resolved (snapshot "v1" "Ready" "Green")) := by
  decide

end Verdict

/-! ## The throttle bound -/

section Throttle

variable (cfg : Config)

theorem step_throttle_count (s : State) (m : Msg) (h : (step cfg s m).settled = none) :
    (step cfg s m).consecutiveThrottleErrors =
      match m with
      | Msg.tick _ => s.consecutiveThrottleErrors
      | Msg.events result _ =>
        if isThrottling result then s.consecutiveThrottleErrors + 1 else 0
      | Msg.environment result _ =>
        if isThrottling result then s.consecutiveThrottleErrors + 1 else 0 := by
  have hs := step_unsettled cfg s m h
  revert h
  cases m with
  | tick now =>
    intro _
    simp only [step, hs]
    exact (update_fields cfg s now).2.2.2.2.2.1
  | events result now =>
    simp only [step, hs]
    unfold onEvents
    simp only [reject, say, foldl_consumeEvent]
    repeat' split
    all_goals simp_all
  | environment result now =>
    simp only [step, hs]
    unfold onEnvironment
    simp only [reject, resolve, say]
    repeat' split
    all_goals simp_all

theorem throttle_count_of_run (start : Int) (msgs : List Msg)
    (h : (run cfg (initial start) msgs).settled = none) :
    (run cfg (initial start) msgs).consecutiveThrottleErrors = throttlesInARow msgs.reverse := by
  induction msgs using List.reverseRecOn with
  | nil => rfl
  | append_singleton pre m ih =>
    rw [run_append, run_cons, run_nil] at h ⊢
    have hpre := ih (step_unsettled cfg _ m h)
    rw [step_throttle_count cfg _ m h, hpre, List.reverse_append]
    cases m <;> simp [throttlesInARow]

theorem throttles_without_events (msgs : List Msg)
    (h : ∀ m ∈ msgs, isEventsResponse m = false) :
    throttlesInARow msgs = environmentThrottlesInARow msgs := by
  induction msgs with
  | nil => rfl
  | cons m rest ih =>
    have hrest := ih (fun x hx => h x (List.mem_cons_of_mem _ hx))
    cases m with
    | tick now => simpa [throttlesInARow, environmentThrottlesInARow] using hrest
    | events result now =>
      have := h _ (List.mem_cons_self _ _)
      simp [isEventsResponse] at this
    | environment result now => simp [throttlesInARow, environmentThrottlesInARow, hrest]

/-- C2, as the code has it: the one counter `consecutiveThrottleErrors` serves
both streams. A throttled environment response handled in a run from the
initial state aborts (rejects with the throttling error) if and only if at least
4 throttle responses in a row, of either stream, were handled just before it;
otherwise the promise stays unsettled. When the run holds no events response
this count is the count of environment throttles in a row, so 4 of them never
abort and the 5th does. -/
theorem throttle_abort (cfg : Config) (start : Int) (msgs : List Msg)
    (result : Result (List EnvironmentDescription)) (now : Int)
    (hthrottled : isThrottling result = true)
    (hs : (run cfg (initial start) msgs).settled = none) :
    ((step cfg (run cfg (initial start) msgs) (Msg.environment result now)).settled =
          some (Outcome.rejected (Failure.throttled (throttlesInARow msgs.reverse + 1))) ↔
        4 ≤ throttlesInARow msgs.reverse) ∧
      ((step cfg (run cfg (initial start) msgs) (Msg.environment result now)).settled = none ↔
        throttlesInARow msgs.reverse < 4) ∧
      ((∀ m ∈ msgs, isEventsResponse m = false) →
        throttlesInARow msgs.reverse = environmentThrottlesInARow msgs.reverse) := by
  have hcount := throttle_count_of_run cfg start msgs hs
  refine ⟨?_, ?_, fun h => throttles_without_events _ (fun m hm => h m (List.mem_reverse.mp hm))⟩
  · rw [step_environment_unsettled cfg _ result now hs]
    unfold onEnvironment
    simp only [hthrottled, reject, say, hs, hcount, if_true]
    by_cases h5 : throttlesInARow msgs.reverse + 1 ≥ 5
    · simp [h5]; omega
    · simp [h5, hs]; omega
  · rw [step_environment_unsettled cfg _ result now hs]
    unfold onEnvironment
    simp only [hthrottled, reject, say, hs, hcount, if_true]
    by_cases h5 : throttlesInARow msgs.reverse + 1 ≥ 5
    · simp [h5]; omega
    · simp [h5, hs]; omega

theorem throttle_abort_witness :
    isThrottling (throttledResult (List EnvironmentDescription)) = true ∧
      (run sampleConfig (initial 0) fourEnvironmentThrottles).settled = none ∧
      (((step sampleConfig (run sampleConfig (initial 0) fourEnvironmentThrottles)
              (Msg.environment (throttledResult _) 40500)).settled =
            some (Outcome.rejected
              (Failure.throttled (throttlesInARow fourEnvironmentThrottles.reverse + 1))) ↔
          4 ≤ throttlesInARow fourEnvironmentThrottles.reverse) ∧
        ((step sampleConfig (run sampleConfig (initial 0) fourEnvironmentThrottles)
              (Msg.environment (throttledResult _) 40500)).settled = none ↔
          throttlesInARow fourEnvironmentThrottles.reverse < 4) ∧
        ((∀ m ∈ fourEnvironmentThrottles, isEventsResponse m = false) →
          throttlesInARow fourEnvironmentThrottles.reverse =
            environmentThrottlesInARow fourEnvironmentThrottles.reverse)) :=
  ⟨by decide, by decide,
    throttle_abort sampleConfig 0 fourEnvironmentThrottles (throttledResult _) 40500
      (by decide) (by decide)⟩

/-- C2 fails as stated: with the events request throttled as well on each of
three ticks, the third throttled environment response in a row aborts, the
shared counter being at 6. -/
theorem abort_at_third_environment_throttle :
    (run sampleConfig (initial 0) bothStreamsThrottled).settled =
        some (Outcome.rejected (Failure.throttled 6)) ∧
      environmentThrottlesInARow bothStreamsThrottled.reverse = 3 ∧
      (run sampleConfig (initial 0) bothStreamsThrottled.dropLast).settled = none := by
  decide

end Throttle

/-! ## The cadence -/

section Cadence

variable (cfg : Config)

theorem delayFor_mono (e e' : Int) (h : e ≤ e') : delayFor e ≤ delayFor e' := by
  unfold delayFor MINUTE SECOND
  split_ifs <;> omega

theorem step_waitPeriod (s : State) (m : Msg) :
    (step cfg s m).waitPeriod = s.waitPeriod ∨
      ∃ now, m = Msg.tick now ∧ 5 * MINUTE < now - cfg.waitStart ∧
        (step cfg s m).waitPeriod = delayFor (now - cfg.waitStart) := by
  unfold step
  split
  · left; rfl
  · cases m with
    | events result now => left; exact (onEvents_fields cfg s result now).2.2.1
    | environment result now => left; exact (onEnvironment_fields cfg s result now).2.1
    | tick now =>
      simp only [update, delayFor]
      by_cases h10 : now - cfg.waitStart > 10 * MINUTE
      · right
        refine ⟨now, rfl, ?_, by simp [h10]⟩
        unfold MINUTE SECOND at h10 ⊢
        omega
      · by_cases h5 : now - cfg.waitStart > 5 * MINUTE
        · right
          exact ⟨now, rfl, h5, by simp [h10, h5]⟩
        · left
          simp [h10, h5]

theorem run_waitPeriod (msgs : List Msg) (s : State) :
    (run cfg s msgs).waitPeriod = s.waitPeriod ∨
      ∃ e ∈ tickElapsed cfg msgs, 5 * MINUTE < e ∧ (run cfg s msgs).waitPeriod = delayFor e := by
  induction msgs generalizing s with
  | nil => left; rfl
  | cons m rest ih =>
    rw [run_cons]
    rcases ih (step cfg s m) with hrest | ⟨e, he, h5, hrest⟩
    · rcases step_waitPeriod cfg s m with hstep | ⟨now, rfl, h5, hstep⟩
      · left; exact hrest.trans hstep
      · right
        exact ⟨now - cfg.waitStart, by simp [tickElapsed], h5, hrest.trans hstep⟩
    · right
      refine ⟨e, ?_, h5, hrest⟩
      unfold tickElapsed at he ⊢
      rw [List.filterMap_cons]
      split
      · exact he
      · exact List.mem_cons_of_mem _ he

theorem run_between_ticks (msgs : List Msg) (s : State)
    (h : ∀ m ∈ msgs, isTick m = false) :
    (run cfg s msgs).waitPeriod = s.waitPeriod ∧
      ((run cfg s msgs).timer = s.timer ∨ (run cfg s msgs).timer = some s.waitPeriod) := by
  induction msgs generalizing s with
  | nil => exact ⟨rfl, Or.inl rfl⟩
  | cons m rest ih =>
    rw [run_cons]
    have hrest := ih (step cfg s m) (fun x hx => h x (List.mem_cons_of_mem _ hx))
    have hm := h m (List.mem_cons_self _ _)
    have hstep : (step cfg s m).waitPeriod = s.waitPeriod ∧
        ((step cfg s m).timer = s.timer ∨ (step cfg s m).timer = some s.waitPeriod) := by
      unfold step
      split
      · exact ⟨rfl, Or.inl rfl⟩
      · cases m with
        | tick now => simp [isTick] at hm
        | events result now =>
          have he := onEvents_fields cfg s result now
          exact ⟨he.2.2.1, Or.inl he.2.2.2.1⟩
        | environment result now =>
          have he := onEnvironment_fields cfg s result now
          exact ⟨he.2.1, he.2.2.2.2⟩
    refine ⟨hrest.1.trans hstep.1, ?_⟩
    rcases hrest.2 with h1 | h1
    · rcases hstep.2 with h2 | h2
      · left; exact h1.trans h2
      · right; exact h1.trans h2
    · right; rw [h1, hstep.1]

/-- C7: in a run from the initial state whose ticks have non-decreasing elapsed
times, the delay of a timer armed after the tick with elapsed time `e` (and
before the next tick) is `delayFor e`: 10 seconds up to 5 minutes, 20 seconds
above 5 and up to 10 minutes, 30 seconds above 10 minutes, whatever the number
of ticks made; `delayFor` never decreases as the elapsed time grows, and is 10,
20 and 30 seconds at 4, 6 and 11 minutes. -/
theorem cadence (cfg : Config) (start : Int) (before : List Msg) (now : Int)
    (after : List Msg) (d : Int)
    (hmono : (tickElapsed cfg (before ++ [Msg.tick now])).Pairwise (fun e e' => e ≤ e'))
    (hs : (run cfg (initial start) before).settled = none)
    (hafter : ∀ m ∈ after, isTick m = false)
    (htimer : (run cfg (initial start) (before ++ Msg.tick now :: after)).timer = some d) :
    d = delayFor (now - cfg.waitStart) ∧
      (now - cfg.waitStart ≤ 5 * MINUTE → d = 10 * SECOND) ∧
      (5 * MINUTE < now - cfg.waitStart → now - cfg.waitStart ≤ 10 * MINUTE →
        d = 20 * SECOND) ∧
      (10 * MINUTE < now - cfg.waitStart → d = 30 * SECOND) ∧
      (∀ e e', e ≤ e' → delayFor e ≤ delayFor e') ∧
      delayFor (4 * MINUTE) = 10 * SECOND ∧ delayFor (6 * MINUTE) = 20 * SECOND ∧
      delayFor (11 * MINUTE) = 30 * SECOND := by
  have hle : ∀ e ∈ tickElapsed cfg before, e ≤ now - cfg.waitStart := by
    unfold tickElapsed at hmono ⊢
    rw [List.filterMap_append, List.pairwise_append] at hmono
    intro e he
    exact hmono.2.2 e he (now - cfg.waitStart) (by simp)
  have hbefore : (run cfg (initial start) before).waitPeriod = 10 * SECOND ∨
      ∃ e ∈ tickElapsed cfg before, 5 * MINUTE < e ∧
        (run cfg (initial start) before).waitPeriod = delayFor e :=
    run_waitPeriod cfg before (initial start)
  have htick : (step cfg (run cfg (initial start) before) (Msg.tick now)).waitPeriod =
        delayFor (now - cfg.waitStart) ∧
      (step cfg (run cfg (initial start) before) (Msg.tick now)).timer = none := by
    simp only [step, hs]
    refine ⟨?_, (update_fields cfg _ now).2.2.2.2.2.2⟩
    simp only [update, delayFor]
    by_cases h10 : now - cfg.waitStart > 10 * MINUTE
    · simp [h10]
    · by_cases h5 : now - cfg.waitStart > 5 * MINUTE
      · simp [h10, h5]
      · simp only [h10, h5, if_false]
        rcases hbefore with h | ⟨e, he, he5, _⟩
        · exact h
        · exact absurd (lt_of_lt_of_le he5 (hle e he)) h5
  rw [run_append, run_cons] at htimer
  have hrest :=
    run_between_ticks cfg after (step cfg (run cfg (initial start) before) (Msg.tick now)) hafter
  have hd : d = delayFor (now - cfg.waitStart) := by
    rcases hrest.2 with h | h
    · rw [h, htick.2] at htimer
      exact absurd htimer (by simp)
    · rw [h, htick.1] at htimer
      exact (Option.some.inj htimer).symm
  refine ⟨hd, ?_, ?_, ?_, delayFor_mono, by decide, by decide, by decide⟩
  · intro h
    rw [hd]
    unfold delayFor MINUTE SECOND at *
    split_ifs <;> omega
  · intro h h'
    rw [hd]
    unfold delayFor MINUTE SECOND at *
    split_ifs <;> omega
  · intro h
    rw [hd]
    unfold delayFor MINUTE SECOND at *
    split_ifs <;> omega

theorem cadence_witness :
    (tickElapsed sampleConfig (slowSecondTick ++ [Msg.tick 380000])).Pairwise
        (fun e e' => e ≤ e') ∧
      (run sampleConfig (initial 0) slowSecondTick).settled = none ∧
      (∀ m ∈ [Msg.environment (okEnvironment (snapshot "v0" "Updating" "Grey")) 380100],
        isTick m = false) ∧
      (run sampleConfig (initial 0)
          (slowSecondTick ++ Msg.tick 380000 ::
            [Msg.environment (okEnvironment (snapshot "v0" "Updating" "Grey")) 380100])).timer =
        some 20000 ∧
      (20000 = delayFor (380000 - sampleConfig.waitStart) ∧
        (380000 - sampleConfig.waitStart ≤ 5 * MINUTE → 20000 = 10 * SECOND) ∧
        (5 * MINUTE < 380000 - sampleConfig.waitStart →
          380000 - sampleConfig.waitStart ≤ 10 * MINUTE → 20000 = 20 * SECOND) ∧
        (10 * MINUTE < 380000 - sampleConfig.waitStart → 20000 = 30 * SECOND) ∧
        (∀ e e', e ≤ e' → delayFor e ≤ delayFor e') ∧
        delayFor (4 * MINUTE) = 10 * SECOND ∧ delayFor (6 * MINUTE) = 20 * SECOND ∧
        delayFor (11 * MINUTE) = 30 * SECOND) :=
  ⟨by decide, by decide, by decide, by decide,
    cadence sampleConfig 0 slowSecondTick 380000
      [Msg.environment (okEnvironment (snapshot "v0" "Updating" "Grey")) 380100] 20000
      (by decide) (by decide) (by decide) (by decide)⟩

end Cadence

/-! ## The degraded timeout -/

section Timeout

variable (cfg : Config)

theorem onEvents_answered (s : State) (result : Result (List EventRecord)) (now : Int)
    (h : eventsAnswered result = true) : (onEvents cfg s result now).settled = s.settled := by
  unfold eventsAnswered at h
  unfold onEvents
  by_cases ht : isThrottling result = true
  · simp [ht, say]
  · simp only [ht, Bool.false_or, Bool.and_eq_true, beq_iff_eq, Option.isSome_iff_exists] at h
    obtain ⟨h200, received, hbody⟩ := h
    simp only [ht, expect_of_ok result h200, hbody, foldl_consumeEvent]
    repeat' split
    all_goals simp_all

theorem showsDegraded_iff (result : Result (List EnvironmentDescription))
    (h : showsDegraded cfg result = true) :
    result.statusCode = 200 ∧ ∃ env, result.body.bind List.head? = some env ∧
      env.VersionLabel = cfg.versionLabel ∧ env.Status = "Ready" ∧ env.Health ≠ "Green" := by
  unfold showsDegraded at h
  simp only [Bool.and_eq_true, beq_iff_eq] at h
  refine ⟨h.1, ?_⟩
  have h2 := h.2
  split at h2
  · rename_i env henv
    simp only [Bool.and_eq_true, beq_iff_eq, bne_iff_ne, ne_eq] at h2
    exact ⟨env, henv, h2.1.1, h2.1.2, h2.2⟩
  · exact absurd h2 (by simp)

theorem step_opens_window (s : State) (result : Result (List EnvironmentDescription))
    (now : Int) (hs : s.settled = none) (hd : s.degraded = false)
    (h : showsDegraded cfg result = true) :
    (step cfg s (Msg.environment result now)).settled = none ∧
      (step cfg s (Msg.environment result now)).degraded = true ∧
      (step cfg s (Msg.environment result now)).healThreshold =
        some (now + cfg.waitForRecoverySeconds * SECOND) := by
  obtain ⟨h200, env, henv, hv, hr, hg⟩ := showsDegraded_iff cfg result h
  rw [step_environment_unsettled cfg s result now hs]
  unfold onEnvironment
  simp only [isThrottling_of_ok result h200, expect_of_ok result h200, henv, reject, resolve,
    say]
  simp [hv, hr, hg, hd, hs]

theorem step_in_window (s : State) (m : Msg) (deadline : Int) (hd : s.degraded = true)
    (ht : s.healThreshold = some deadline) (hs : s.settled = none ∨ TimedOut cfg s)
    (hm : degradedDelivery cfg m = true) :
    ((step cfg s m).settled = none ∨ TimedOut cfg (step cfg s m)) ∧
      (∀ result now, m = Msg.environment result now → deadline < now →
        TimedOut cfg (step cfg s m)) := by
  rcases hs with hs | ⟨health, hs⟩
  · cases m with
    | tick now =>
      refine ⟨Or.inl ?_, fun _ _ h => by cases h⟩
      simp only [step, hs]
      exact (update_fields cfg s now).2.2.2.2.1.trans hs
    | events result now =>
      refine ⟨Or.inl ?_, fun _ _ h => by cases h⟩
      simp only [step, hs]
      exact (onEvents_answered cfg s result now hm).trans hs
    | environment result now =>
      obtain ⟨h200, env, henv, hv, hr, hg⟩ := showsDegraded_iff cfg result hm
      rw [step_environment_unsettled cfg s result now hs]
      unfold onEnvironment
      simp only [isThrottling_of_ok result h200, expect_of_ok result h200, henv, reject,
        resolve, say, TimedOut]
      by_cases hlate : now > deadline
      · simp [hv, hr, hg, hd, hs, ht, hlate]
      · simp only [hv, hr, hg, hd, hs, ht, hlate]
        refine ⟨Or.inl (by simp), ?_⟩
        intro r t hrt hlt
        cases hrt
        exact absurd hlt hlate
  · have hstep : step cfg s m = s := step_of_settled cfg s m _ hs
    rw [hstep]
    exact ⟨Or.inr ⟨health, hs⟩, fun _ _ _ _ => ⟨health, hs⟩⟩

theorem run_in_window (msgs : List Msg) (s : State) (deadline : Int) (hd : s.degraded = true)
    (ht : s.healThreshold = some deadline) (hs : s.settled = none ∨ TimedOut cfg s)
    (hall : ∀ m ∈ msgs, degradedDelivery cfg m = true) :
    ((run cfg s msgs).settled = none ∨ TimedOut cfg (run cfg s msgs)) ∧
      ((∃ t ∈ environmentTimes msgs, deadline < t) → TimedOut cfg (run cfg s msgs)) := by
  induction msgs generalizing s with
  | nil => exact ⟨hs, fun ⟨t, h, _⟩ => by simp [environmentTimes] at h⟩
  | cons m rest ih =>
    have hm := hall m (List.mem_cons_self _ _)
    have hstep := step_in_window cfg s m deadline hd ht hs hm
    have hkeep := step_keeps_grace cfg s m hd
    have hrest := ih (step cfg s m) hkeep.1 (hkeep.2.trans ht) hstep.1
      (fun x hx => hall x (List.mem_cons_of_mem _ hx))
    rw [run_cons]
    refine ⟨hrest.1, ?_⟩
    rintro ⟨t, hmem, hlt⟩
    cases m with
    | tick now => exact hrest.2 ⟨t, by simpa [environmentTimes] using hmem, hlt⟩
    | events result now => exact hrest.2 ⟨t, by simpa [environmentTimes] using hmem, hlt⟩
    | environment result now =>
      simp only [environmentTimes, List.filterMap_cons, List.mem_cons] at hmem
      rcases hmem with rfl | hmem
      · obtain ⟨health, hto⟩ := hstep.2 result t rfl hlt
        rw [run_of_settled cfg _ rest _ hto]
        exact ⟨health, hto⟩
      · exact hrest.2 ⟨t, hmem, hlt⟩

theorem run_before_window (msgs : List Msg) (s : State) (hs : s.settled = none)
    (hd : s.degraded = false) (hall : ∀ m ∈ msgs, degradedDelivery cfg m = true) :
    environmentTimes msgs = [] ∨
      ∃ t ts, environmentTimes msgs = t :: ts ∧
        ((∃ t' ∈ ts, t + cfg.waitForRecoverySeconds * SECOND < t') →
          TimedOut cfg (run cfg s msgs)) := by
  induction msgs generalizing s with
  | nil => left; rfl
  | cons m rest ih =>
    have hm := hall m (List.mem_cons_self _ _)
    have hrest' : ∀ x ∈ rest, degradedDelivery cfg x = true :=
      fun x hx => hall x (List.mem_cons_of_mem _ hx)
    rw [run_cons]
    cases m with
    | tick now =>
      have hu := update_fields cfg s now
      have hstep : step cfg s (Msg.tick now) = update cfg s now := by simp only [step, hs]
      rw [hstep]
      simpa [environmentTimes] using
        ih (update cfg s now) (hu.2.2.2.2.1.trans hs) (hu.1.trans hd) hrest'
    | events result now =>
      have he := onEvents_fields cfg s result now
      have hstep : step cfg s (Msg.events result now) = onEvents cfg s result now := by
        simp only [step, hs]
      rw [hstep]
      simpa [environmentTimes] using
        ih (onEvents cfg s result now) ((onEvents_answered cfg s result now hm).trans hs)
          (he.1.trans hd) hrest'
    | environment result now =>
      right
      have hopen := step_opens_window cfg s result now hs hd hm
      refine ⟨now, environmentTimes rest, by simp [environmentTimes], ?_⟩
      exact (run_in_window cfg rest _ _ hopen.2.1 hopen.2.2 (Or.inl hopen.1) hrest').2

/-- C4, as the code has it: when from an unsettled run without grace window on
every environment response is a status-200 snapshot at the target version,
`Ready` and not `Green`, the events stream does not fail, and the `n`
environment responses are handled `d` seconds apart starting at `t0`, then
`(n - 1) * d > W` (the time from the first of them, which opens the window, to
the `n`-th exceeds the window of `W` seconds) makes the run end rejected with
the health-recovery timeout. -/
theorem degraded_timeout (cfg : Config) (s : State) (msgs : List Msg) (W d n : Nat)
    (t0 : Int) (hW : cfg.waitForRecoverySeconds = W) (hs : s.settled = none)
    (hd : s.degraded = false) (hall : ∀ m ∈ msgs, degradedDelivery cfg m = true)
    (htimes : environmentTimes msgs =
      (List.range n).map (fun k => t0 + ((k * d : Nat) : Int) * SECOND))
    (hlate : W < (n - 1) * d) :
    ∃ health, (run cfg s msgs).settled =
      some (Outcome.rejected (Failure.healthTimeout health W)) := by
  have hn : 2 ≤ n := by
    rcases n with _ | _ | n
    · simp at hlate
    · simp at hlate
    · omega
  have hlast : t0 + (((n - 1) * d : Nat) : Int) * SECOND ∈ environmentTimes msgs := by
    rw [htimes]
    exact List.mem_map.mpr ⟨n - 1, List.mem_range.mpr (by omega), rfl⟩
  rcases run_before_window cfg msgs s hs hd hall with hnil | ⟨t, ts, hcons, hto⟩
  · rw [hnil] at hlast
    exact absurd hlast (List.not_mem_nil _)
  · have hrange : List.range n = 0 :: (List.range' 1 (n - 1)) := by
      obtain ⟨k, rfl⟩ : ∃ k, n = k + 1 := ⟨n - 1, by omega⟩
      rw [List.range_eq_range', List.range'_succ]
      simp
    rw [htimes, hrange, List.map_cons] at hcons
    obtain ⟨ht, hts⟩ := List.cons.inj hcons
    have ht0 : t = t0 := by rw [← ht]; simp
    have hmem : t0 + (((n - 1) * d : Nat) : Int) * SECOND ∈ ts := by
      rw [← hts]
      exact List.mem_map.mpr ⟨n - 1, List.mem_range'_1.mpr (by omega), rfl⟩
    have := hto ⟨_, hmem, by
      rw [ht0, hW]
      have : ((W : Nat) : Int) < (((n - 1) * d : Nat) : Int) := by exact_mod_cast hlate
      unfold SECOND
      omega⟩
    unfold TimedOut at this
    rw [hW] at this
    exact this

theorem degraded_timeout_witness :
    sampleConfig.waitForRecoverySeconds = ((30 : Nat) : Int) ∧
      (initial 0).settled = none ∧ (initial 0).degraded = false ∧
      (∀ m ∈ fiveYellowTicks, degradedDelivery sampleConfig m = true) ∧
      environmentTimes fiveYellowTicks =
        (List.range 5).map (fun k => 0 + ((k * 10 : Nat) : Int) * SECOND) ∧
      30 < (5 - 1) * 10 ∧
      ∃ health, (run sampleConfig (initial 0) fiveYellowTicks).settled =
        some (Outcome.rejected (Failure.healthTimeout health ((30 : Nat) : Int))) :=
  ⟨rfl, rfl, rfl, by decide, by decide, by decide,
    degraded_timeout sampleConfig (initial 0) fiveYellowTicks 30 10 5 0 rfl rfl rfl
      (by decide) (by decide) (by decide)⟩

/-- C4 fails as stated: with W = 30, d = 10 and n = 4 (so n * d > W), health
`Yellow` on all four ticks, the run is still unsettled after the fourth tick,
which is handled 30 seconds after the window was opened; the deadline is
passed only at the fifth tick. -/
theorem pending_after_four_yellow_ticks :
    (run sampleConfig (initial 0) fourYellowTicks).settled = none ∧
      environmentTimes fourYellowTicks = [0, 10000, 20000, 30000] ∧
      (run sampleConfig (initial 0) fourYellowTicks).healThreshold = some 30000 ∧
      sampleConfig.waitForRecoverySeconds < 4 * 10 := by
  decide

end Timeout

/-! ## The placeholder pass -/

section Placeholder

theorem matchStar_elim (k : List Char → Bool) (xs : List Char) (h : matchStar k xs = true) :
    ∃ ws rest, xs = ws ++ rest ∧ (∀ c ∈ ws, isWhiteSpace c = true) ∧ k rest = true := by
  induction xs with
  | nil => exact ⟨[], [], rfl, by simp, by simpa [matchStar] using h⟩
  | cons x xs ih =>
    simp only [matchStar, Bool.or_eq_true, Bool.and_eq_true] at h
    rcases h with h | ⟨hx, h⟩
    · exact ⟨[], x :: xs, rfl, by simp, h⟩
    · obtain ⟨ws, rest, hxs, hws, hk⟩ := ih h
      refine ⟨x :: ws, rest, by simp [hxs], ?_, hk⟩
      intro c hc
      rcases List.mem_cons.mp hc with rfl | hc
      · exact hx
      · exact hws c hc

theorem matchAtoms_literal (text : List Char) (ps : List Atom) (xs : List Char)
    (h : matchAtoms (text.map Atom.chr ++ ps) xs = true) :
    ∃ rest, xs = text ++ rest ∧ matchAtoms ps rest = true := by
  induction text generalizing xs with
  | nil => exact ⟨xs, rfl, by simpa using h⟩
  | cons c text ih =>
    cases xs with
    | nil => simp [matchAtoms] at h
    | cons x xs =>
      simp only [List.map_cons, List.cons_append, matchAtoms, Bool.and_eq_true,
        beq_iff_eq] at h
      obtain ⟨rest, hxs, hrest⟩ := ih xs h.2
      exact ⟨rest, by simp [h.1, hxs], hrest⟩

theorem matchAtoms_placeholder (name : String) (xs : List Char)
    (h : matchAtoms (placeholderPattern name) xs = true) :
    ∃ ws₁ ws₂ : List Char,
      (∀ c ∈ ws₁, isWhiteSpace c = true) ∧ (∀ c ∈ ws₂, isWhiteSpace c = true) ∧
        xs = "\x7b\x7b".data ++ ws₁ ++ name.data ++ ws₂ ++ "\x7d\x7d".data := by
  unfold placeholderPattern literal at h
  simp only [List.append_assoc] at h
  obtain ⟨r₁, h₁, m₁⟩ := matchAtoms_literal _ _ _ h
  simp only [List.singleton_append, matchAtoms] at m₁
  obtain ⟨ws₁, r₂, h₂, hw₁, m₂⟩ := matchStar_elim _ _ m₁
  obtain ⟨r₃, h₃, m₃⟩ := matchAtoms_literal _ _ _ m₂
  simp only [List.singleton_append, matchAtoms] at m₃
  obtain ⟨ws₂, r₄, h₄, hw₂, m₄⟩ := matchStar_elim _ _ m₃
  have m₄' : matchAtoms ("\x7d\x7d".data.map Atom.chr ++ []) r₄ = true := by
    simpa using m₄
  obtain ⟨r₅, h₅, m₅⟩ := matchAtoms_literal _ _ _ m₄'
  have hr₅ : r₅ = [] := by
    cases r₅ with
    | nil => rfl
    | cons c cs => simp [matchAtoms] at m₅
  refine ⟨ws₁, ws₂, hw₁, hw₂, ?_⟩
  rw [h₁, h₂, h₃, h₄, h₅, hr₅]
  simp

theorem replaceAnchored_of_not_placeholder (name : String) (file replacement : String)
    (hname : name ∈ ["ECR_REGISTRY", "APPLICATION_NAME", "ENVIRONMENT_NAME", "VERSION_LABEL"])
    (h : ¬IsPlaceholder file) :
    replaceAnchored (placeholderPattern name) file replacement = file := by
  unfold replaceAnchored
  split
  · rename_i hmatch
    obtain ⟨ws₁, ws₂, hw₁, hw₂, hfile⟩ := matchAtoms_placeholder name file.data hmatch
    exact absurd ⟨name, hname, ws₁, ws₂, hw₁, hw₂, hfile⟩ h
  · rfl

theorem unchanged_of_not_placeholder
    (file ECR_REGISTRY application environmentName versionLabel : String)
    (h : ¬IsPlaceholder file) :
    introduceEnvironmentVariablesIntoJSONFile file ECR_REGISTRY application environmentName
      versionLabel = file := by
  unfold introduceEnvironmentVariablesIntoJSONFile
  rw [replaceAnchored_of_not_placeholder "ECR_REGISTRY" file _ (by simp) h,
    replaceAnchored_of_not_placeholder "APPLICATION_NAME" file _ (by simp) h,
    replaceAnchored_of_not_placeholder "ENVIRONMENT_NAME" file _ (by simp) h,
    replaceAnchored_of_not_placeholder "VERSION_LABEL" file _ (by simp) h]

theorem count_of_whiteSpace (c : Char) (hc : isWhiteSpace c = false) (ws : List Char)
    (hws : ∀ x ∈ ws, isWhiteSpace x = true) : List.count c ws = 0 := by
  rw [List.count_eq_zero]
  intro hmem
  rw [hws c hmem] at hc
  exact absurd hc (by simp)

/-- A text holding `{{VERSION_LABEL}}` with anything before or after it is not
one of the exceptional texts. -/
theorem not_placeholder_of_surrounded (before after : String)
    (h : before ≠ "" ∨ after ≠ "") :
    ¬IsPlaceholder (before ++ "\x7b\x7bVERSION_LABEL\x7d\x7d" ++ after) := by
  rintro ⟨name, hname, ws₁, ws₂, hw₁, hw₂, heq⟩
  simp only [String.data_append] at heq
  have hname' : List.count (Char.ofNat 123) name.data = 0 ∧
      List.count (Char.ofNat 125) name.data = 0 := by
    simp only [List.mem_cons, List.mem_singleton, List.not_mem_nil, or_false] at hname
    rcases hname with rfl | rfl | rfl | rfl <;> decide
  have hopen := congrArg (List.count (Char.ofNat 123)) heq
  have hclose := congrArg (List.count (Char.ofNat 125)) heq
  simp only [List.count_append,
    count_of_whiteSpace (Char.ofNat 123) (by decide) ws₁ hw₁,
    count_of_whiteSpace (Char.ofNat 123) (by decide) ws₂ hw₂,
    count_of_whiteSpace (Char.ofNat 125) (by decide) ws₁ hw₁,
    count_of_whiteSpace (Char.ofNat 125) (by decide) ws₂ hw₂, hname'.1, hname'.2]
    at hopen hclose
  have c₁ : List.count (Char.ofNat 123) "\x7b\x7bVERSION_LABEL\x7d\x7d".data = 2 := by decide
  have c₂ : List.count (Char.ofNat 123) "\x7b\x7b".data = 2 := by decide
  have c₃ : List.count (Char.ofNat 123) "\x7d\x7d".data = 0 := by decide
  have c₄ : List.count (Char.ofNat 125) "\x7b\x7bVERSION_LABEL\x7d\x7d".data = 2 := by decide
  have c₅ : List.count (Char.ofNat 125) "\x7b\x7b".data = 0 := by decide
  have c₆ : List.count (Char.ofNat 125) "\x7d\x7d".data = 2 := by decide
  rw [c₁, c₂, c₃] at hopen
  rw [c₄, c₅, c₆] at hclose
  have hb : Char.ofNat 123 ∉ before.data := List.count_eq_zero.mp (by omega)
  have ha : Char.ofNat 125 ∉ after.data := List.count_eq_zero.mp (by omega)
  rcases h with h | h
  · have hne : before.data ≠ [] := fun hnil => h (String.ext hnil)
    obtain ⟨b, bs, hbs⟩ := List.exists_cons_of_ne_nil hne
    have hhead := congrArg List.head? heq
    rw [hbs] at hhead
    simp only [List.cons_append, List.head?_cons] at hhead
    have hb' : b = Char.ofNat 123 := by
      have : some b = some (Char.ofNat 123) := hhead.trans (by rfl)
      exact Option.some.inj this
    exact hb (by rw [hbs, hb']; exact List.mem_cons_self _ _)
  · have hne : after.data ≠ [] := fun hnil => h (String.ext hnil)
    have hlast := congrArg List.getLast? heq
    rw [List.getLast?_append_of_ne_nil _ hne] at hlast
    have hr : ("\x7b\x7b".data ++ ws₁ ++ name.data ++ ws₂ ++ "\x7d\x7d".data).getLast? =
        some (Char.ofNat 125) := by
      rw [List.getLast?_append_of_ne_nil _ (by decide)]
      rfl
    rw [hr] at hlast
    exact ha (List.mem_of_getLast?_eq_some hlast)

/-- C10: `introduceEnvironmentVariablesIntoJSONFile` returns the file text
unchanged unless the whole text is two opening braces, optional white space,
one of `ECR_REGISTRY`, `APPLICATION_NAME`, `ENVIRONMENT_NAME`, `VERSION_LABEL`,
optional white space and two closing braces; in particular a text holding
`{{VERSION_LABEL}}` with any character before or after it comes back with the
placeholder still in it. -/
theorem placeholder_only_when_whole_file
    (file ECR_REGISTRY application environmentName versionLabel : String) :
    (¬IsPlaceholder file →
        introduceEnvironmentVariablesIntoJSONFile file ECR_REGISTRY application
          environmentName versionLabel = file) ∧
      (∀ before after : String,
        file = before ++ "\x7b\x7bVERSION_LABEL\x7d\x7d" ++ after →
        before ≠ "" ∨ after ≠ "" →
        introduceEnvironmentVariablesIntoJSONFile file ECR_REGISTRY application
          environmentName versionLabel = before ++ "\x7b\x7bVERSION_LABEL\x7d\x7d" ++ after) := by
  refine ⟨unchanged_of_not_placeholder file _ _ _ _, ?_⟩
  intro before after hfile hne
  rw [hfile]
  exact unchanged_of_not_placeholder _ _ _ _ _ (not_placeholder_of_surrounded before after hne)

theorem placeholder_only_when_whole_file_witness :
    ¬IsPlaceholder sampleDockerrun ∧
      introduceEnvironmentVariablesIntoJSONFile sampleDockerrun "registry" "app" "env" "v2" =
        sampleDockerrun ∧
      ("\x7b\"Name\": \"app:" ≠ "" ∨ "\"\x7d" ≠ "") ∧
      introduceEnvironmentVariablesIntoJSONFile sampleDockerrun "registry" "app" "env" "v2" =
        "\x7b\"Name\": \"app:" ++ "\x7b\x7bVERSION_LABEL\x7d\x7d" ++ "\"\x7d" :=
  ⟨not_placeholder_of_surrounded _ _ (Or.inl (by decide)),
    (placeholder_only_when_whole_file sampleDockerrun "registry" "app" "env" "v2").1
      (not_placeholder_of_surrounded _ _ (Or.inl (by decide))),
    Or.inl (by decide),
    (placeholder_only_when_whole_file sampleDockerrun "registry" "app" "env" "v2").2
      "\x7b\"Name\": \"app:" "\"\x7d" rfl (Or.inl (by decide))⟩

/-- The substitution does happen when the placeholder is the whole text. -/
theorem whole_file_placeholder_replaced :
    introduceEnvironmentVariablesIntoJSONFile "\x7b\x7b VERSION_LABEL \x7d\x7d" "registry"
        "app" "env" "v2" = "v2" ∧
      introduceEnvironmentVariablesIntoJSONFile "\x7b\x7bECR_REGISTRY\x7d\x7d" "registry"
        "app" "env" "v2" = "registry" := by
  decide

end Placeholder

end BeanstalkDeploy
